import Mathlib

/-!
Verification of the HoopsHype Loop backend server (src/server.py).

The Python source is shallowly embedded below. Strings are modelled as
Lean strings operated on through their character lists; Python floats are
modelled as exact rationals (so `round` is round-half-to-even on rationals
and `int(...)` is truncation toward zero); dictionary `.get(key, default)`
access is modelled with `Option` fields and `Option.getD`.
-/

/-! ## Basic character/string helpers shared by the embedded functions -/

/-- Whitespace test used to model Python `str.strip()` and the leading
whitespace tolerance of `float(...)`/`int(...)` (space, tab, newline, CR). -/
def isWsCh (c : Char) : Bool := c == ' ' || c == '\t' || c == '\n' || c == '\r'

/-- Model of Python `str.strip()` on a character list. -/
def stripWsChars (l : List Char) : List Char :=
  ((l.dropWhile isWsCh).reverse.dropWhile isWsCh).reverse

/-- Model of Python `str.strip()`. -/
def stripWsStr (s : String) : String := String.mk (stripWsChars s.data)

/-- ASCII decimal digit test. -/
def isDigitCh (c : Char) : Bool := decide ('0' ≤ c ∧ c ≤ '9')

/-- Numeric value of an ASCII digit character. -/
def digitVal (c : Char) : Nat := c.toNat - 48

/-- Value of a digit string read in base 10. -/
def digitsToNat (l : List Char) : Nat := l.foldl (fun a c => a * 10 + digitVal c) 0

/-- Digit character for a value in 0..9. -/
def digitChar (d : Nat) : Char :=
  if d = 0 then '0' else if d = 1 then '1' else if d = 2 then '2'
  else if d = 3 then '3' else if d = 4 then '4' else if d = 5 then '5'
  else if d = 6 then '6' else if d = 7 then '7' else if d = 8 then '8' else '9'

/-- Decimal rendering of a natural number (fuel-based so it reduces in the
kernel; the fuel `n+1` always suffices since the value shrinks by /10). -/
def natToCharsAux : Nat → Nat → List Char → List Char
  | 0, _, acc => acc
  | fuel+1, n, acc =>
    if n < 10 then digitChar n :: acc
    else natToCharsAux fuel (n / 10) (digitChar (n % 10) :: acc)

/-- Decimal rendering of a natural number, as Python `str(...)` renders it. -/
def natToStr (n : Nat) : String := String.mk (natToCharsAux (n + 1) n [])

/-- Decimal rendering of an integer, as Python `str(...)` renders it. -/
def intToStr (n : Int) : String :=
  match n with
  | Int.ofNat m => natToStr m
  | Int.negSucc m => "-" ++ natToStr (m + 1)

/-- Model of Python `str.replace(pat, sub)` for a non-empty `pat`,
fuel-based on the length of the scanned list (each step consumes at least
one character, so fuel equal to the list length suffices). -/
def replaceFuel (pat sub : List Char) : Nat → List Char → List Char
  | 0, l => l
  | _+1, [] => []
  | fuel+1, c :: rest =>
    if (c :: rest).take pat.length = pat then
      sub ++ replaceFuel pat sub fuel ((c :: rest).drop pat.length)
    else
      c :: replaceFuel pat sub fuel rest

/-- Model of Python `str.replace` (all the uses in server.py have a
non-empty pattern). -/
def strReplace (s pat sub : String) : String :=
  String.mk (replaceFuel pat.data sub.data s.data.length s.data)

/-! ## Models of Python numeric parsing and conversion

`pyFloat` models `float(s)` on decimal literals: optional surrounding
whitespace, optional sign, digits with an optional fractional part and an
optional exponent.  Exotic accepted spellings (`inf`, `nan`, digit
underscores) are modelled as parse failures; in every call site in
server.py the result of `float` is immediately passed to `int(...)`
inside a `try`, and `int(inf)`/`int(nan)` raise, so both the model and the
source fall through to the same `except` branch on those inputs. -/

/-- Optional leading sign; returns (isNegative, rest). -/
def parseSign : List Char → Bool × List Char
  | '-' :: rest => (true, rest)
  | '+' :: rest => (false, rest)
  | l => (false, l)

/-- An exact, not necessarily reduced fraction: the value of a parsed
float literal.  Kept unreduced so that every operation on it is plain
integer arithmetic that the kernel can evaluate. -/
structure Frac where
  num : Int
  den : Nat
deriving DecidableEq

/-- Exponent suffix of a float literal: empty means exponent 0; otherwise
`e`/`E`, an optional sign and at least one digit, consuming everything. -/
def parseExpPart : List Char → Option Int
  | [] => some 0
  | c :: rest =>
    if c == 'e' || c == 'E' then
      match parseSign rest with
      | (neg, r) =>
        let ds := r.takeWhile isDigitCh
        let r2 := r.dropWhile isDigitCh
        if ds = [] ∨ r2 ≠ [] then none
        else some (if neg then -(digitsToNat ds : Int) else (digitsToNat ds : Int))
    else none

/-- Model of Python `float(s)` on decimal literals (see section comment):
the exact value `(ip.fp) * 10^e` with the optional sign applied, returned
as an unreduced fraction. -/
def pyFloat (s : String) : Option Frac :=
  let l := stripWsChars s.data
  match parseSign l with
  | (neg, l1) =>
    let ip := l1.takeWhile isDigitCh
    let l2 := l1.dropWhile isDigitCh
    let fpr : List Char × List Char :=
      match l2 with
      | '.' :: rest => (rest.takeWhile isDigitCh, rest.dropWhile isDigitCh)
      | _ => ([], l2)
    let fp := fpr.1
    let l3 := fpr.2
    if ip = [] ∧ fp = [] then none
    else
      match parseExpPart l3 with
      | none => none
      | some e =>
        let mantNum : Int := ((digitsToNat ip * 10 ^ fp.length + digitsToNat fp : Nat) : Int)
        let mantDen : Nat := 10 ^ fp.length
        let f : Frac :=
          match e with
          | Int.ofNat k => ⟨mantNum * ((10 ^ k : Nat) : Int), mantDen⟩
          | Int.negSucc k => ⟨mantNum, mantDen * 10 ^ (k + 1)⟩
        some (if neg then ⟨-f.num, f.den⟩ else f)

/-- Model of Python `int(s)` on a string: optional surrounding whitespace,
optional sign, at least one digit and nothing else. -/
def pyIntStr (s : String) : Option Int :=
  let l := stripWsChars s.data
  match parseSign l with
  | (neg, l1) =>
    let ds := l1.takeWhile isDigitCh
    let rest := l1.dropWhile isDigitCh
    if ds = [] ∨ rest ≠ [] then none
    else some (if neg then -(digitsToNat ds : Int) else (digitsToNat ds : Int))

/-- Model of Python `int(x)` on a (finite) float value: truncation toward
zero of the exact rational. -/
def truncRat (q : ℚ) : Int :=
  if 0 ≤ q.num then ((q.num.toNat / q.den : Nat) : Int)
  else -((q.num.natAbs / q.den : Nat) : Int)

/-- Truncation toward zero of a parsed float literal (`int(float(s))`). -/
def truncFrac (f : Frac) : Int :=
  if 0 ≤ f.num then ((f.num.toNat / f.den : Nat) : Int)
  else -((f.num.natAbs / f.den : Nat) : Int)

/-! ## server.py `_parse_minutes` (lines 283-293) -/

/-- Dynamic value handed to `_parse_minutes`: the source first checks
`isinstance(val, (int, float))` and otherwise works on `str(val)`. -/
inductive MinInput where
  | intVal (n : Int)
  | floatVal (q : ℚ)
  | strVal (s : String)
deriving DecidableEq

/-- The marker stripping of `_parse_minutes`:
`str(val).replace("PT", "").replace("M", "").replace("S", "").strip()`. -/
def minStrip (s : String) : String :=
  stripWsStr (strReplace (strReplace (strReplace s "PT" "") "M" "") "S" "")

/-- True when the character list contains a colon (Python `":" in s`). -/
def hasColonCh (l : List Char) : Bool := l.any (fun c => c == ':')

/-- The part of the string before the first colon, `s.split(":")[0]`. -/
def colonHead (l : List Char) : List Char := l.takeWhile (fun c => !(c == ':'))

/-- Embedding of `_parse_minutes` (server.py lines 283-293).  A number is
truncated with `int(...)`; a string has the `PT`/`M`/`S` markers removed
and is then read either as the integer before the first colon or as
`int(float(s))`; any parse failure is absorbed by the bare `except` and
yields 0. -/
def parseMinutes : MinInput → Int
  | MinInput.intVal n => n
  | MinInput.floatVal q => truncRat q
  | MinInput.strVal v =>
    let s := minStrip v
    if hasColonCh s.data then
      match pyIntStr (String.mk (colonHead s.data)) with
      | some n => n
      | none => 0
    else
      match pyFloat s with
      | some q => truncFrac q
      | none => 0

/-! ## server.py game clock normalization (lines 128-139, inside fetch_games) -/

/-- The clock stripping of fetch_games:
`g.get("gameClock", "").replace("PT", "").replace("M", ":").replace("S", "").strip()`. -/
def clockStrip (s : String) : String :=
  stripWsStr (strReplace (strReplace (strReplace s "PT" "") "M" ":") "S" "")

/-- Model of Python `s.split(":")`: splits on every colon, keeping empty
pieces, so the result is always non-empty. -/
def splitColon : List Char → List (List Char)
  | [] => [[]]
  | c :: rest =>
    if c == ':' then [] :: splitColon rest
    else
      match splitColon rest with
      | [] => [[c]]
      | h :: t => (c :: h) :: t

/-- The `try` body of the clock formatting: `mins = int(float(parts[0]))
if parts[0] else 0` and `secs = int(float(parts[1])) if len(parts) > 1 and
parts[1] else 0`; `none` models an exception escaping to the `except`. -/
def clockParse (parts : List (List Char)) : Option (Int × Int) :=
  let p0 := parts.headD []
  let minsO : Option Int :=
    if p0 = [] then some 0 else (pyFloat (String.mk p0)).map truncFrac
  match minsO with
  | none => none
  | some mins =>
    let secsO : Option Int :=
      match parts.drop 1 with
      | [] => some 0
      | p1 :: _ => if p1 = [] then some 0 else (pyFloat (String.mk p1)).map truncFrac
    match secsO with
    | none => none
    | some secs => some (mins, secs)

/-- Python `f-string` field `{secs:02d}`: zero-pad the decimal rendering to
width 2 (a negative value such as -5 already renders with width 2). -/
def pad2 (n : Int) : String :=
  let s := intToStr n
  if s.length < 2 then "0" ++ s else s

/-- Embedding of the clock normalization in fetch_games (lines 128-139):
strip markers; an empty result gives "0:00"; otherwise try to parse
minutes and seconds and render `f"{mins}:{secs:02d}"`, and on a parse
exception fall back to the stripped string itself. -/
def normalizeClock (raw : String) : String :=
  let s := clockStrip raw
  if s = "" then "0:00"
  else
    match clockParse (splitColon s.data) with
    | some ms => intToStr ms.1 ++ ":" ++ pad2 ms.2
    | none => s

/-! ## server.py `_pct` (lines 165-169)

Python's `round(x, 1)` rounds to a multiple of 0.1 with ties to even
(idealized over exact rationals, as floats are throughout this file).
`roundHalfEvenFrac n d` rounds the rational `n / d` (with `d > 0`) to the
nearest integer, ties to even. -/

/-- Round `n / d` (requires `d > 0`) to the nearest integer, half to even. -/
def roundHalfEvenFrac (n d : Int) : Int :=
  let f := n.ediv d
  let r := n - f * d
  if 2 * r < d then f
  else if d < 2 * r then f + 1
  else if f.emod 2 = 0 then f else f + 1

/-- Round a rational to the nearest integer, half to even. -/
def roundHalfEvenInt (q : ℚ) : Int := roundHalfEvenFrac q.num (q.den : Int)

/-- Model of Python `round(q, 1)`: round to one decimal, half to even. -/
def pyRound1 (q : ℚ) : ℚ := ((roundHalfEvenInt (q * 10) : Int) : ℚ) / 10

/-- Embedding of `_pct` (server.py lines 165-169):
`0.0` when `attempted == 0`, else `round(made / attempted * 100, 1)`. -/
def pct (made attempted : Int) : ℚ :=
  if attempted = 0 then 0 else pyRound1 ((made : ℚ) / (attempted : ℚ) * 100)

/-- The value of `_pct` expressed in tenths, computed with integer
arithmetic only: `round(made / attempted * 100, 1) * 10 =
roundHalfEven(made * 1000 / attempted)` (sign-normalized denominator). -/
def pctTenths (made attempted : Int) : Int :=
  if attempted = 0 then 0
  else if 0 < attempted then roundHalfEvenFrac (made * 1000) attempted
  else roundHalfEvenFrac (-(made * 1000)) (-attempted)

/-- Python `str(...)` rendering of a one-decimal float value given in
tenths: `str(round(x, 1))` prints exactly one digit after the point for
such values (shortest round-trip repr). -/
def floatStr1 (k : Int) : String :=
  (if k < 0 then "-" else "") ++ natToStr (k.natAbs / 10) ++ "." ++ natToStr (k.natAbs % 10)

/-- Embedding of the f-string `f"{_pct(m, a)}%"` used for team
percentages in `_parse_players` (lines 260-264). -/
def pctStr (made attempted : Int) : String :=
  floatStr1 (pctTenths made attempted) ++ "%"

/-! ## server.py `_format_pm` (lines 296-302) and `_short_name` (lines 275-280) -/

/-- Embedding of `_format_pm`: positive values get a leading `+`. -/
def formatPM (v : Int) : String :=
  if 0 < v then "+" ++ intToStr v
  else if v < 0 then intToStr v
  else "0"

/-- Python `str.split()` with no argument: split on whitespace runs,
discarding empty pieces (auxiliary accumulator of the current word). -/
def wsSplitAux : List Char → List Char → List (List Char)
  | [], cur => if cur = [] then [] else [cur.reverse]
  | c :: rest, cur =>
    if isWsCh c then
      if cur = [] then wsSplitAux rest []
      else cur.reverse :: wsSplitAux rest []
    else wsSplitAux rest (c :: cur)

/-- Python `str.split()` with no argument. -/
def wsSplit (l : List Char) : List (List Char) := wsSplitAux l []

/-- Python `" ".join(ws)`. -/
def joinSpace : List (List Char) → List Char
  | [] => []
  | [w] => w
  | w :: ws => w ++ ' ' :: joinSpace ws

/-- Embedding of `_short_name` (server.py lines 275-280): with at least
two whitespace-separated parts, `f"{parts[0][0]}. {' '.join(parts[1:])}"`;
otherwise the original string unchanged. -/
def shortName (full : String) : String :=
  match wsSplit (stripWsChars full.data) with
  | p0 :: p1 :: rest => String.mk (p0.take 1) ++ ". " ++ String.mk (joinSpace (p1 :: rest))
  | _ => full

/-! ## server.py game status classification (fetch_games, lines 117-151) -/

/-- The raw game fields read by the status/period/clock logic of
fetch_games, each `Option` modelling a possibly missing key with the
`.get` default applied in `classifyStatus`. -/
structure RawGame where
  gameStatus : Option Int
  gameStatusText : Option String
  period : Option Int
  gameClock : Option String
deriving DecidableEq

/-- The status triple of the normalized game record: `status`,
`period` label and `clock` as produced by fetch_games. -/
structure StatusOut where
  status : String
  periodLabel : String
  clock : String
deriving DecidableEq

/-- The `ordinal` lambda of fetch_games (line 140):
`f"{n}{'th' if 11<=n<=13 else {1:'st',2:'nd',3:'rd'}.get(n%10,'th')}"`
(Python `%` on integers is `Int.emod`). -/
def ordinalStr (n : Int) : String :=
  intToStr n ++
    (if 11 ≤ n ∧ n ≤ 13 then "th"
     else if n.emod 10 = 1 then "st"
     else if n.emod 10 = 2 then "nd"
     else if n.emod 10 = 3 then "rd"
     else "th")

/-- Embedding of the status/period/clock derivation of fetch_games
(lines 117-151): status code 1 is upcoming (label = stripped
`gameStatusText`, empty clock); code 2 is live (ordinal quarter label or
`OT<n>` for periods past 4, clock from `normalizeClock`); any other code
is final (label `Final` or `Final/OT<n>`, empty clock). -/
def classifyStatus (g : RawGame) : StatusOut :=
  let statusNum := g.gameStatus.getD 1
  let statusText := stripWsStr (g.gameStatusText.getD "")
  let period := g.period.getD 0
  if statusNum = 1 then ⟨"upcoming", statusText, ""⟩
  else if statusNum = 2 then
    ⟨"live",
     (if period ≤ 4 then ordinalStr period ++ " Qtr" else "OT" ++ intToStr (period - 4)),
     normalizeClock (g.gameClock.getD "")⟩
  else
    ⟨"final",
     (if period ≤ 4 then "Final" else "Final/OT" ++ intToStr (period - 4)),
     ""⟩

/-! ## server.py quarter padding (parse_team, lines 91-107)

Only the quarters slice of `parse_team` is embedded; its input is the
list of per-period optional scores (`t.get("periods", [])`, each period's
`p.get("score", 0)` defaulted here). -/

/-- The `while len(quarters) < 4: quarters.append(0)` loop; the loop runs
at most 4 times, so fuel 4 is exact. -/
def padLoop : Nat → List Int → List Int
  | 0, q => q
  | fuel+1, q => if q.length < 4 then padLoop fuel (q ++ [0]) else q

/-- Embedding of the quarters computation of parse_team (lines 91-96 and
the `quarters[:4]` truncation on line 107). -/
def parseTeamQuarters (periods : List (Option Int)) : List Int :=
  let quarters := if periods = [] then [] else periods.map (fun p => p.getD 0)
  (padLoop 4 quarters).take 4

/-! ## server.py fetch_headlines selection loop (lines 333-340) -/

/-- An extracted (text, url) candidate handed to the selection loop. -/
structure Candidate where
  text : String
  url : String
deriving DecidableEq

/-- A selected headline record `{t, b, url}`. -/
structure Headline where
  t : String
  b : String
  url : String
deriving DecidableEq

/-- The `for a in articles[:max]` body (lines 333-340): a candidate with
truthy text longer than 15 characters is appended, badged `"new"` while
fewer than 3 headlines have been collected and `"rumor"` afterwards. -/
def selectLoop : List Headline → List Candidate → List Headline
  | hs, [] => hs
  | hs, a :: rest =>
    if a.text ≠ "" ∧ 15 < a.text.length then
      selectLoop (hs ++ [⟨a.text, (if hs.length < 3 then "new" else "rumor"), a.url⟩]) rest
    else selectLoop hs rest

/-- Embedding of the headline selection of fetch_headlines: the loop runs
over `articles[:max_headlines]` starting from an empty list. -/
def fetchHeadlines (maxHeadlines : Nat) (articles : List Candidate) : List Headline :=
  selectLoop [] (articles.take maxHeadlines)

/-- Modelled from the claim text (not from the source): the headline
badge for the k-th selected candidate. -/
def tagFromIndex (k : Nat) (a : Candidate) : Headline :=
  ⟨a.text, (if k < 3 then "new" else "rumor"), a.url⟩

/-- Modelled from the claim text (not from the source): select the
candidates longer than 15 characters in order, tagging the first 3
selected `"new"` and the rest `"rumor"`, starting at selected-count `k`. -/
def tagSelected : Nat → List Candidate → List Headline
  | _, [] => []
  | k, a :: rest =>
    if 15 < a.text.length then tagFromIndex k a :: tagSelected (k + 1) rest
    else tagSelected k rest

/-- Modelled from the claim text (not from the source): C4 reads "selects
the candidates whose text length is strictly greater than 15 characters,
up to the configured maximum count of selected headlines" — i.e. filter
first, then cap the number of selected headlines. -/
def fetchHeadlinesClaim (maxHeadlines : Nat) (articles : List Candidate) : List Headline :=
  tagSelected 0 ((articles.filter (fun a => decide (15 < a.text.length))).take maxHeadlines)

/-! ## server.py `_parse_players` (lines 172-272)

Raw player records are embedded with `Option` fields for every key the
source reads with `.get`; a missing `statistics` dict is the record with
every field `none` (equivalent to the source's `{}` default, since every
access to it is defaulted). -/

/-- The statistics sub-record of a raw player. -/
structure RawStats where
  minutesCalculated : Option MinInput
  minutes : Option MinInput
  points : Option Int
  fieldGoalsMade : Option Int
  fieldGoalsAttempted : Option Int
  threePointersMade : Option Int
  threePointersAttempted : Option Int
  freeThrowsMade : Option Int
  freeThrowsAttempted : Option Int
  reboundsOffensive : Option Int
  reboundsDefensive : Option Int
  reboundsTotal : Option Int
  assists : Option Int
  steals : Option Int
  blocks : Option Int
  turnovers : Option Int
  foulsPersonal : Option Int
  plusMinusPoints : Option Int
deriving DecidableEq

/-- A raw player record as read by `_parse_players`. -/
structure RawPlayer where
  status : Option String
  played : Option String
  starter : Option String
  name : Option String
  firstName : Option String
  familyName : Option String
  position : Option String
  notPlayingReason : Option String
  statistics : RawStats
deriving DecidableEq

/-- A full player line (`player_obj` in the source).  The Python dict
keys `or`/`dr`/`to` are spelled `orb`/`drb`/`tov` here. -/
structure PlayerLine where
  n : String
  pos : String
  min : Int
  pts : Int
  fg : String
  tp : String
  ft : String
  orb : Int
  drb : Int
  reb : Int
  ast : Int
  stl : Int
  blk : Int
  tov : Int
  pf : Int
  pm : String
deriving DecidableEq

/-- A did-not-play entry `{n, r}`. -/
structure DNPEntry where
  n : String
  r : String
deriving DecidableEq

/-- The running `totals` accumulator (numeric fields of the source's
`totals` dict; its constant `pm: ""` only reappears in the formatted
totals). -/
structure Totals where
  min : Int
  pts : Int
  fgM : Int
  fgA : Int
  tpM : Int
  tpA : Int
  ftM : Int
  ftA : Int
  orb : Int
  drb : Int
  reb : Int
  ast : Int
  stl : Int
  blk : Int
  tov : Int
  pf : Int
deriving DecidableEq

/-- The formatted totals row (`totals_formatted` in the source). -/
structure TotalsFmt where
  min : Int
  pts : Int
  fg : String
  tp : String
  ft : String
  orb : Int
  drb : Int
  reb : Int
  ast : Int
  stl : Int
  blk : Int
  tov : Int
  pf : Int
  pm : String
deriving DecidableEq

/-- The team shooting percentage strings (`pcts` in the source). -/
structure Pcts where
  fg : String
  tp : String
  ft : String
deriving DecidableEq

/-- The full return value of `_parse_players`. -/
structure PlayerSection where
  starters : List PlayerLine
  bench : List PlayerLine
  dnp : List DNPEntry
  totals : TotalsFmt
  pcts : Pcts
deriving DecidableEq

/-- The loop state of `_parse_players`: the three lists and the totals. -/
structure PPState where
  starters : List PlayerLine
  bench : List PlayerLine
  dnp : List DNPEntry
  totals : Totals
deriving DecidableEq

/-- The all-zero initial totals dict. -/
def zeroTotals : Totals := ⟨0, 0, 0, 0, 0, 0, 0, 0, 0, 0, 0, 0, 0, 0, 0, 0⟩

/-- The player display name:
`p.get("name", p.get("firstName", "") + " " + p.get("familyName", ""))`. -/
def playerName (p : RawPlayer) : String :=
  p.name.getD ((p.firstName.getD "") ++ " " ++ (p.familyName.getD ""))

/-- The parsed minutes of a player:
`_parse_minutes(stats.get("minutesCalculated", stats.get("minutes", "0")))`. -/
def minValOf (p : RawPlayer) : Int :=
  parseMinutes (p.statistics.minutesCalculated.getD (p.statistics.minutes.getD (MinInput.strVal "0")))

/-- The `player_obj` dict built for an active player (lines 208-225). -/
def mkPlayerLine (p : RawPlayer) : PlayerLine :=
  ⟨shortName (playerName p),
   p.position.getD "",
   minValOf p,
   p.statistics.points.getD 0,
   intToStr (p.statistics.fieldGoalsMade.getD 0) ++ "-" ++ intToStr (p.statistics.fieldGoalsAttempted.getD 0),
   intToStr (p.statistics.threePointersMade.getD 0) ++ "-" ++ intToStr (p.statistics.threePointersAttempted.getD 0),
   intToStr (p.statistics.freeThrowsMade.getD 0) ++ "-" ++ intToStr (p.statistics.freeThrowsAttempted.getD 0),
   p.statistics.reboundsOffensive.getD 0,
   p.statistics.reboundsDefensive.getD 0,
   p.statistics.reboundsTotal.getD 0,
   p.statistics.assists.getD 0,
   p.statistics.steals.getD 0,
   p.statistics.blocks.getD 0,
   p.statistics.turnovers.getD 0,
   p.statistics.foulsPersonal.getD 0,
   formatPM (p.statistics.plusMinusPoints.getD 0)⟩

/-- The totals update for an active player (lines 227-240). -/
def addTotals (t : Totals) (p : RawPlayer) : Totals :=
  ⟨t.min + minValOf p,
   t.pts + p.statistics.points.getD 0,
   t.fgM + p.statistics.fieldGoalsMade.getD 0,
   t.fgA + p.statistics.fieldGoalsAttempted.getD 0,
   t.tpM + p.statistics.threePointersMade.getD 0,
   t.tpA + p.statistics.threePointersAttempted.getD 0,
   t.ftM + p.statistics.freeThrowsMade.getD 0,
   t.ftA + p.statistics.freeThrowsAttempted.getD 0,
   t.orb + p.statistics.reboundsOffensive.getD 0,
   t.drb + p.statistics.reboundsDefensive.getD 0,
   t.reb + p.statistics.reboundsTotal.getD 0,
   t.ast + p.statistics.assists.getD 0,
   t.stl + p.statistics.steals.getD 0,
   t.blk + p.statistics.blocks.getD 0,
   t.tov + p.statistics.turnovers.getD 0,
   t.pf + p.statistics.foulsPersonal.getD 0⟩

/-- The DNP entry built for an inactive player (lines 190-194). -/
def mkDNPEntry (p : RawPlayer) : DNPEntry :=
  ⟨shortName (playerName p), "DNP — " ++ p.notPlayingReason.getD "Coach\x27s Decision"⟩

/-- One iteration of the `for p in players_data` loop (lines 184-246):
a player whose defaulted status is not ACTIVE or whose defaulted played
flag is "0" only produces a DNP entry; otherwise the player line is
built, the totals are updated, and the line is appended to starters when
the defaulted starter flag is "1" and to bench otherwise. -/
def ppStep (st : PPState) (p : RawPlayer) : PPState :=
  if p.status.getD "ACTIVE" ≠ "ACTIVE" ∨ p.played.getD "1" = "0" then
    ⟨st.starters, st.bench, st.dnp ++ [mkDNPEntry p], st.totals⟩
  else
    let obj := mkPlayerLine p
    let t := addTotals st.totals p
    if p.starter.getD "0" = "1" then ⟨st.starters ++ [obj], st.bench, st.dnp, t⟩
    else ⟨st.starters, st.bench ++ [obj], st.dnp, t⟩

/-- The loop of `_parse_players` run from the empty initial state. -/
def parsePlayersState (players : List RawPlayer) : PPState :=
  players.foldl ppStep ⟨[], [], [], zeroTotals⟩

/-- Embedding of `_parse_players` (lines 172-272): run the loop, then
format the totals (lines 249-258) and recompute the team percentages
from the summed makes/attempts (lines 260-264). -/
def parsePlayers (players : List RawPlayer) : PlayerSection :=
  let st := parsePlayersState players
  ⟨st.starters, st.bench, st.dnp,
   ⟨st.totals.min, st.totals.pts,
    intToStr st.totals.fgM ++ "-" ++ intToStr st.totals.fgA,
    intToStr st.totals.tpM ++ "-" ++ intToStr st.totals.tpA,
    intToStr st.totals.ftM ++ "-" ++ intToStr st.totals.ftA,
    st.totals.orb, st.totals.drb, st.totals.reb, st.totals.ast,
    st.totals.stl, st.totals.blk, st.totals.tov, st.totals.pf, ""⟩,
   ⟨pctStr st.totals.fgM st.totals.fgA,
    pctStr st.totals.tpM st.totals.tpA,
    pctStr st.totals.ftM st.totals.ftA⟩⟩

/-- The statistics record with every key missing. -/
def emptyStats : RawStats :=
  ⟨none, none, none, none, none, none, none, none, none, none, none, none,
   none, none, none, none, none, none⟩

/-- A player record carrying none of the classification flags. -/
def anonPlayer : RawPlayer :=
  ⟨none, none, none, none, none, none, none, none, emptyStats⟩

/-! ## server.py refresh_loop (lines 354-365) and the cache routes

One cycle of `refresh_loop` is embedded as a pure state transformer: the
fetch function's outcome is either a value, a `None` result, or a raised
exception (caught by the loop's `except`).  Only a non-`None` value
updates the cache entry, together with the current time.  The embedding
is generic in the cached key: both the `games` and `headlines` loops are
instances of it. -/

/-- Outcome of one `fetch_fn()` call. -/
inductive FetchResult (α : Type) where
  | ok (data : α)
  | null
  | exn
deriving DecidableEq

/-- One cache slot: `{"data": ..., "updated": ...}` (`updated` is a
`time.time()` float, modelled as a rational). -/
structure CacheEntry (α : Type) where
  data : α
  updated : ℚ
deriving DecidableEq

/-- One cycle of `refresh_loop` (lines 356-365) acting on one key's
entry: on `ok data`, both fields are replaced under the lock; on a `None`
result or an exception, the entry is left untouched. -/
def refreshCycle (e : CacheEntry α) (r : FetchResult α) (now : ℚ) : CacheEntry α :=
  match r with
  | FetchResult.ok d => ⟨d, now⟩
  | FetchResult.null => e
  | FetchResult.exn => e

/-- The read payload served for a list-valued cache slot (api_games and
api_headlines, lines 372-389): data, updated and a derived count — the
response shape has no error field of any kind. -/
structure ApiSnapshot (α : Type) where
  data : List α
  updated : ℚ
  count : Nat
deriving DecidableEq

/-- A cache read as performed by the routes: the served snapshot. -/
def readSnapshot (e : CacheEntry (List α)) : ApiSnapshot α :=
  ⟨e.data, e.updated, e.data.length⟩

/-! ## Lock-interleaving model for the cache (C9)

The writer's critical section (lines 360-362) performs two separate
assignments — `cache[key]["data"] = data` then `cache[key]["updated"] =
time.time()` — under `cache_lock`; every reader route reads both fields
under the same lock.  The model below tags the stored data and timestamp
with the refresh-cycle number that wrote them; a torn read would observe
two different tags.  `CStep` has one transition per atomic instruction:
writer lock acquire / data write / timestamp write / release, and reader
lock acquire / release (readers do not mutate the entry, so one reader
token represents any number of concurrent readers).  A reader observes
the pair exactly while it holds the lock. -/

/-- Who holds `cache_lock`. -/
inductive Holder where
  | writer
  | reader
deriving DecidableEq

/-- Model state: lock owner, cycle tag of the stored data, cycle tag of
the stored timestamp, the writer's program counter inside its critical
section (0 = outside, 1 = lock held, 2 = data written, 3 = timestamp
written), and the writer's current cycle number. -/
structure CacheMState where
  lock : Option Holder
  dataVer : Nat
  updVer : Nat
  wpc : Nat
  cycle : Nat
deriving DecidableEq

/-- Atomic transitions of the writer loop and of readers. -/
inductive CStep : CacheMState → CacheMState → Prop where
  | wAcquire (d u c : Nat) :
      CStep ⟨none, d, u, 0, c⟩ ⟨some Holder.writer, d, u, 1, c + 1⟩
  | wData (l : Option Holder) (d u c : Nat) :
      CStep ⟨l, d, u, 1, c⟩ ⟨l, c, u, 2, c⟩
  | wUpd (l : Option Holder) (d u c : Nat) :
      CStep ⟨l, d, u, 2, c⟩ ⟨l, d, c, 3, c⟩
  | wRelease (l : Option Holder) (d u c : Nat) :
      CStep ⟨l, d, u, 3, c⟩ ⟨none, d, u, 0, c⟩
  | rAcquire (d u w c : Nat) :
      CStep ⟨none, d, u, w, c⟩ ⟨some Holder.reader, d, u, w, c⟩
  | rRelease (d u w c : Nat) :
      CStep ⟨some Holder.reader, d, u, w, c⟩ ⟨none, d, u, w, c⟩

/-- The initial cache state (lines 44-47): both tags 0, lock free. -/
def initCache : CacheMState := ⟨none, 0, 0, 0, 0⟩

/-- States reachable from the initial state. -/
inductive ReachC : CacheMState → Prop where
  | init : ReachC initCache
  | next {s t : CacheMState} : ReachC s → CStep s t → ReachC t

/-- The inductive invariant: the writer mid-critical-section implies it
holds the lock; outside (or just after acquiring) the two tags agree;
after the data write the data tag is the current cycle, and after the
timestamp write both are. -/
def InvC (s : CacheMState) : Prop :=
  (s.wpc ≠ 0 → s.lock = some Holder.writer) ∧
  (s.wpc = 0 ∨ s.wpc = 1 → s.dataVer = s.updVer) ∧
  (s.wpc = 2 ∨ s.wpc = 3 → s.dataVer = s.cycle) ∧
  (s.wpc = 3 → s.updVer = s.cycle)

/-! ## Helper definitions used in the statements of the claims -/

/-- Sum of the minutes column of a list of player lines. -/
def sumMin (l : List PlayerLine) : Int := (l.map PlayerLine.min).sum

/-- Sum of the points column of a list of player lines. -/
def sumPts (l : List PlayerLine) : Int := (l.map PlayerLine.pts).sum

/-- The negation of the DNP condition of `_parse_players` (line 189):
a player is active when its defaulted status is ACTIVE and its defaulted
played flag is not "0". -/
def isActiveRP (p : RawPlayer) : Bool :=
  !(decide (p.status.getD "ACTIVE" ≠ "ACTIVE" ∨ p.played.getD "1" = "0"))

/-- The players that survive the DNP test, in order. -/
def activesOf (ps : List RawPlayer) : List RawPlayer := ps.filter isActiveRP

/-- Sum of a per-player statistic over a list of raw players. -/
def sumOf (f : RawPlayer → Int) (ps : List RawPlayer) : Int := (ps.map f).sum

/-- Defaulted per-player points, `stats.get("points", 0)`. -/
def ptsOf (p : RawPlayer) : Int := p.statistics.points.getD 0

/-- Defaulted per-player field goals made. -/
def fgmOf (p : RawPlayer) : Int := p.statistics.fieldGoalsMade.getD 0

/-- Defaulted per-player field goals attempted. -/
def fgaOf (p : RawPlayer) : Int := p.statistics.fieldGoalsAttempted.getD 0

/-- Defaulted per-player three pointers made. -/
def tpmOf (p : RawPlayer) : Int := p.statistics.threePointersMade.getD 0

/-- Defaulted per-player three pointers attempted. -/
def tpaOf (p : RawPlayer) : Int := p.statistics.threePointersAttempted.getD 0

/-- Defaulted per-player free throws made. -/
def ftmOf (p : RawPlayer) : Int := p.statistics.freeThrowsMade.getD 0

/-- Defaulted per-player free throws attempted. -/
def ftaOf (p : RawPlayer) : Int := p.statistics.freeThrowsAttempted.getD 0

/-! ## Claim theorems -/

/-- C1: for every cached key, a refresh cycle whose fetch raises or
returns a null result leaves the cache entry (data and updated timestamp)
exactly as it was, and a subsequent read serves the same stale snapshot
with no error indicator (the response shape carries none). -/
theorem c1_failed_cycle_preserves_cache (α : Type) (e : CacheEntry (List α)) (now : ℚ) :
    refreshCycle e FetchResult.null now = e ∧
    refreshCycle e FetchResult.exn now = e ∧
    readSnapshot (refreshCycle e FetchResult.null now) = readSnapshot e ∧
    readSnapshot (refreshCycle e FetchResult.exn now) = readSnapshot e :=
  ⟨rfl, rfl, rfl, rfl⟩

/-- C7: `_pct` returns exactly 0 when attempted = 0 and
`round(made/attempted*100, 1)` when attempted > 0. -/
theorem c7_shooting_percentage (made attempted : Int) :
    (attempted = 0 → pct made attempted = 0) ∧
    (0 < attempted →
      pct made attempted = pyRound1 (((made : Int) : ℚ) / ((attempted : Int) : ℚ) * 100)) := by
  constructor
  · intro h
    simp [pct, h]
  · intro h
    have hne : attempted ≠ 0 := ne_of_gt h
    simp [pct, hne]

/-- Witness for C7 at (made, attempted) = (1, 2). -/
theorem c7_shooting_percentage_witness :
    (0 : Int) < 2 ∧ pct 1 2 = pyRound1 (((1 : Int) : ℚ) / ((2 : Int) : ℚ) * 100) :=
  ⟨by decide, (c7_shooting_percentage 1 2).2 (by decide)⟩

/-- C2 counterexample: the claim maps "PT25M00S" to 25, but
`_parse_minutes` strips the markers to the digit string "2500" and
returns 2500. -/
theorem c2_minutes_counterexample :
    parseMinutes (MinInput.strVal "PT25M00S") = 2500 ∧
    parseMinutes (MinInput.strVal "PT25M00S") ≠ 25 := by decide

/-- C2 (amended): minutes parsing is total and never raises; a number is
truncated to its integer minutes; a string has its `PT`/`M`/`S` markers
removed and the remainder parsed — so "PT25M" gives 25 but "PT25M00S"
gives 2500 —; "MM:SS" keeps the part before the colon; the empty string
or any unparseable token gives 0. -/
theorem c2_minutes_amended (n : Int) (q : ℚ) (s : String) :
    parseMinutes (MinInput.intVal n) = n ∧
    parseMinutes (MinInput.floatVal q) = truncRat q ∧
    parseMinutes (MinInput.strVal "PT25M00S") = 2500 ∧
    parseMinutes (MinInput.strVal "PT25M") = 25 ∧
    parseMinutes (MinInput.strVal "25:30") = 25 ∧
    parseMinutes (MinInput.strVal "25") = 25 ∧
    parseMinutes (MinInput.strVal "") = 0 ∧
    (hasColonCh (minStrip s).data = false →
      ((∀ f, pyFloat (minStrip s) = some f →
          parseMinutes (MinInput.strVal s) = truncFrac f) ∧
       (pyFloat (minStrip s) = none → parseMinutes (MinInput.strVal s) = 0))) ∧
    (hasColonCh (minStrip s).data = true →
      ((∀ m, pyIntStr (String.mk (colonHead (minStrip s).data)) = some m →
          parseMinutes (MinInput.strVal s) = m) ∧
       (pyIntStr (String.mk (colonHead (minStrip s).data)) = none →
          parseMinutes (MinInput.strVal s) = 0))) := by
  refine ⟨rfl, rfl, by decide, by decide, by decide, by decide, by decide, ?_, ?_⟩
  · intro hc
    constructor
    · intro f hf
      simp [parseMinutes, hc, hf]
    · intro hf
      simp [parseMinutes, hc, hf]
  · intro hc
    constructor
    · intro m hm
      simp [parseMinutes, hc, hm]
    · intro hm
      simp [parseMinutes, hc, hm]

/-- Witness for C2 at the unparseable token "@@". -/
theorem c2_minutes_witness :
    hasColonCh (minStrip "@@").data = false ∧ pyFloat (minStrip "@@") = none ∧
    parseMinutes (MinInput.strVal "@@") = 0 :=
  ⟨by decide, by decide,
   ((c2_minutes_amended 0 0 "@@").2.2.2.2.2.2.2.1 (by decide)).2 (by decide)⟩

/-- C3 counterexample: the claim says any unparseable clock token yields
exactly "0:00", but the `except` branch returns the stripped token
itself: "XY" normalizes to "XY". -/
theorem c3_clock_counterexample :
    normalizeClock "XY" = "XY" ∧ normalizeClock "XY" ≠ "0:00" := by decide

/-- C3 (amended): clock normalization strips the duration markers, parses
minutes and seconds (truncating fractional seconds) and renders "M:SS"
with zero-padded seconds; a token that is (or strips to) empty yields
"0:00", while a non-empty token that fails to parse yields the
marker-stripped token itself, not "0:00". -/
theorem c3_clock_amended (raw : String) :
    (clockStrip raw = "" → normalizeClock raw = "0:00") ∧
    (clockStrip raw ≠ "" →
      ((∀ m sec, clockParse (splitColon (clockStrip raw).data) = some (m, sec) →
          normalizeClock raw = intToStr m ++ ":" ++ pad2 sec) ∧
       (clockParse (splitColon (clockStrip raw).data) = none →
          normalizeClock raw = clockStrip raw))) ∧
    normalizeClock "PT10M25.00S" = "10:25" ∧
    normalizeClock "PT9M05.5S" = "9:05" ∧
    normalizeClock "" = "0:00" := by
  refine ⟨?_, ?_, by decide, by decide, by decide⟩
  · intro h
    simp [normalizeClock, h]
  · intro h
    constructor
    · intro m sec hp
      simp [normalizeClock, h, hp]
    · intro hp
      simp [normalizeClock, h, hp]

/-- Witness for C3 at the live clock token "PT1M30S". -/
theorem c3_clock_witness :
    clockStrip "PT1M30S" ≠ "" ∧
    clockParse (splitColon (clockStrip "PT1M30S").data) = some (1, 30) ∧
    normalizeClock "PT1M30S" = intToStr 1 ++ ":" ++ pad2 30 :=
  ⟨by decide, by decide,
   ((c3_clock_amended "PT1M30S").2.1 (by decide)).1 1 30 (by decide)⟩

/-- A string longer than 15 characters is not empty (truthiness of the
selection test is implied by the length test). -/
theorem text_long_ne_empty (s : String) (h : 15 < s.length) : s ≠ "" := by
  intro he
  rw [he] at h
  exact absurd h (by decide)

/-- The selection loop grows its accumulator with the filtered, position-
tagged candidates. -/
theorem selectLoop_eq (l : List Candidate) : ∀ hs : List Headline,
    selectLoop hs l = hs ++ tagSelected hs.length l := by
  induction l with
  | nil =>
    intro hs
    simp [selectLoop, tagSelected]
  | cons a rest ih =>
    intro hs
    by_cases h : 15 < a.text.length
    · have hne : a.text ≠ "" := text_long_ne_empty a.text h
      rw [selectLoop, if_pos ⟨hne, h⟩, ih, tagSelected, if_pos h]
      simp [tagFromIndex, List.append_assoc]
    · have hnc : ¬(a.text ≠ "" ∧ 15 < a.text.length) := fun hh => h hh.2
      rw [selectLoop, if_neg hnc, ih, tagSelected, if_neg h]

/-- C4 counterexample: with max_headlines = 1 and candidates
[len ≤ 15, len > 15], the code truncates the candidate list before
filtering and selects nothing, while the claim ("candidates with length
> 15 up to the configured maximum count of selected headlines") selects
the second candidate. -/
theorem c4_headlines_counterexample :
    fetchHeadlines 1 [⟨"short", "u1"⟩, ⟨"sixteen chars ok", "u2"⟩] = [] ∧
    fetchHeadlinesClaim 1 [⟨"short", "u1"⟩, ⟨"sixteen chars ok", "u2"⟩] =
      [⟨"sixteen chars ok", "new", "u2"⟩] := by decide

/-- C4 (amended): the selector examines only the first max_headlines
candidates and selects, in order, those with text length strictly greater
than 15, tagging the first 3 selected "new" and every later selected one
"rumor"; in particular 5 long candidates (with max_headlines ≥ 5) give 3
"new" then 2 "rumor". -/
theorem c4_headlines_amended (maxHeadlines : Nat) (articles : List Candidate) :
    fetchHeadlines maxHeadlines articles = tagSelected 0 (articles.take maxHeadlines) ∧
    fetchHeadlines 10
      [⟨"candidate number one", "u1"⟩, ⟨"candidate number two", "u2"⟩,
       ⟨"candidate number three", "u3"⟩, ⟨"candidate number four", "u4"⟩,
       ⟨"candidate number five", "u5"⟩] =
      [⟨"candidate number one", "new", "u1"⟩, ⟨"candidate number two", "new", "u2"⟩,
       ⟨"candidate number three", "new", "u3"⟩, ⟨"candidate number four", "rumor", "u4"⟩,
       ⟨"candidate number five", "rumor", "u5"⟩] := by
  constructor
  · simpa [fetchHeadlines] using selectLoop_eq (articles.take maxHeadlines) []
  · decide

/-- The padding loop right-pads with zeros up to length 4 (given enough
fuel to reach length 4). -/
theorem padLoop_eq (fuel : Nat) : ∀ q : List Int, 4 ≤ q.length + fuel →
    padLoop fuel q = q ++ List.replicate (4 - q.length) 0 := by
  induction fuel with
  | zero =>
    intro q h
    have h0 : 4 - q.length = 0 := by omega
    simp [padLoop, h0]
  | succ fuel ih =>
    intro q h
    by_cases hl : q.length < 4
    · have h2 : 4 ≤ (q ++ [0]).length + fuel := by
        simp
        omega
      rw [padLoop, if_pos hl, ih _ h2]
      have h3 : 4 - q.length = (4 - (q.length + 1)) + 1 := by omega
      rw [h3]
      simp [List.replicate_succ]
    · have h0 : 4 - q.length = 0 := by omega
      rw [padLoop, if_neg hl]
      simp [h0]

/-- C5: the quarters array always has length exactly 4: per-period scores
are kept in order, right-padded with 0, and truncated to the first 4. -/
theorem c5_quarters_exactly_four (periods : List (Option Int)) :
    (parseTeamQuarters periods).length = 4 ∧
    parseTeamQuarters periods =
      (periods.map (fun p => p.getD 0)).take 4 ++
        List.replicate (4 - periods.length) 0 := by
  have key : parseTeamQuarters periods =
      (periods.map (fun p => p.getD 0)).take 4 ++
        List.replicate (4 - periods.length) 0 := by
    have hq : (if periods = [] then ([] : List Int)
        else periods.map (fun p => p.getD 0)) = periods.map (fun p => p.getD 0) := by
      by_cases h : periods = [] <;> simp [h]
    have hlen : (periods.map (fun p => p.getD 0)).length = periods.length :=
      List.length_map _ _
    simp only [parseTeamQuarters, hq]
    rw [padLoop_eq 4 _ (by omega)]
    rw [List.take_append_eq_append_take]
    rw [hlen, List.take_replicate]
    congr 1
    have : min (4 - periods.length) (4 - periods.length) = 4 - periods.length :=
      Nat.min_self _
    rw [this]
  refine ⟨?_, key⟩
  rw [key]
  simp [List.length_take]
  omega

/-- C8: status, period label and clock are derived together from the one
raw status code and never disagree — code 1 gives "upcoming" with the
venue start-time text and an empty clock; code 2 gives "live" with an
ordinal quarter label ("1st".."4th" from the ordinal helper) or OT<n>
past period 4 and the normalized clock; any other code gives "final"
with "Final"/"Final/OT<n>" and an empty clock, so "final" is never
paired with a non-empty clock. -/
theorem c8_status_derivation (g : RawGame) :
    (g.gameStatus.getD 1 = 1 →
      classifyStatus g = ⟨"upcoming", stripWsStr (g.gameStatusText.getD ""), ""⟩) ∧
    (g.gameStatus.getD 1 = 2 →
      (classifyStatus g).status = "live" ∧
      (g.period.getD 0 ≤ 4 →
        (classifyStatus g).periodLabel = ordinalStr (g.period.getD 0) ++ " Qtr") ∧
      (4 < g.period.getD 0 →
        (classifyStatus g).periodLabel = "OT" ++ intToStr (g.period.getD 0 - 4)) ∧
      (classifyStatus g).clock = normalizeClock (g.gameClock.getD "")) ∧
    (g.gameStatus.getD 1 ≠ 1 → g.gameStatus.getD 1 ≠ 2 →
      (classifyStatus g).status = "final" ∧
      (classifyStatus g).clock = "" ∧
      (g.period.getD 0 ≤ 4 → (classifyStatus g).periodLabel = "Final") ∧
      (4 < g.period.getD 0 →
        (classifyStatus g).periodLabel = "Final/OT" ++ intToStr (g.period.getD 0 - 4))) ∧
    ((classifyStatus g).status = "final" → (classifyStatus g).clock = "") ∧
    ordinalStr 1 = "1st" ∧ ordinalStr 2 = "2nd" ∧ ordinalStr 3 = "3rd" ∧
    ordinalStr 4 = "4th" := by
  by_cases h1 : g.gameStatus.getD 1 = 1
  · refine ⟨fun _ => by simp [classifyStatus, h1], fun h2 => absurd h1 (by omega),
      fun hn1 _ => absurd h1 hn1, fun hf => ?_, by decide, by decide, by decide, by decide⟩
    · exfalso
      have : (classifyStatus g).status = "upcoming" := by simp [classifyStatus, h1]
      rw [this] at hf
      exact absurd hf (by decide)
  · by_cases h2 : g.gameStatus.getD 1 = 2
    · refine ⟨fun hh => absurd hh h1, fun _ => ⟨by simp [classifyStatus, h1, h2], ?_, ?_, ?_⟩,
        fun _ hn2 => absurd h2 hn2, fun hf => ?_, by decide, by decide, by decide, by decide⟩
      · intro hp
        simp [classifyStatus, h1, h2, hp]
      · intro hp
        have hnp : ¬ g.period.getD 0 ≤ 4 := by omega
        simp [classifyStatus, h1, h2, hnp]
      · simp [classifyStatus, h1, h2]
      · exfalso
        have : (classifyStatus g).status = "live" := by simp [classifyStatus, h1, h2]
        rw [this] at hf
        exact absurd hf (by decide)
    · refine ⟨fun hh => absurd hh h1, fun hh => absurd hh h2,
        fun _ _ => ⟨by simp [classifyStatus, h1, h2], by simp [classifyStatus, h1, h2], ?_, ?_⟩,
        fun _ => by simp [classifyStatus, h1, h2], by decide, by decide, by decide, by decide⟩
      · intro hp
        simp [classifyStatus, h1, h2, hp]
      · intro hp
        have hnp : ¬ g.period.getD 0 ≤ 4 := by omega
        simp [classifyStatus, h1, h2, hnp]

/-- Witness for C8 at a final game in overtime (status code 3, period 5). -/
theorem c8_status_derivation_witness :
    (classifyStatus ⟨some 3, some "x", some 5, some ""⟩).status = "final" ∧
    (classifyStatus ⟨some 3, some "x", some 5, some ""⟩).clock = "" ∧
    (classifyStatus ⟨some 3, some "x", some 5, some ""⟩).periodLabel =
      "Final/OT" ++ intToStr ((5 : Int) - 4) := by
  have h := (c8_status_derivation ⟨some 3, some "x", some 5, some ""⟩).2.2.1
    (by decide) (by decide)
  exact ⟨h.1, h.2.1, h.2.2.2 (by decide)⟩

/-- Appending an element never leaves a list unchanged. -/
theorem dnp_append_ne (l : List DNPEntry) (x : DNPEntry) : l ++ [x] ≠ l := by
  intro h
  have := congrArg List.length h
  simp at this

/-- C10: player classification defaults a missing status to ACTIVE, a
missing played flag to played, and a missing starter flag to non-starter;
a record goes to dnp exactly when its defaulted status differs from
ACTIVE or its defaulted played flag is "0", and a record with none of the
flags becomes an active bench player. -/
theorem c10_player_classification (st : PPState) (p : RawPlayer) :
    ((ppStep st p).dnp ≠ st.dnp ↔
      (p.status.getD "ACTIVE" ≠ "ACTIVE" ∨ p.played.getD "1" = "0")) ∧
    (p.status = none → p.played = none → p.starter = none →
      (ppStep st p).dnp = st.dnp ∧
      (ppStep st p).starters = st.starters ∧
      (ppStep st p).bench = st.bench ++ [mkPlayerLine p]) := by
  by_cases h : p.status.getD "ACTIVE" ≠ "ACTIVE" ∨ p.played.getD "1" = "0"
  · constructor
    · simp only [ppStep, if_pos h]
      exact ⟨fun _ => h, fun _ => dnp_append_ne st.dnp (mkDNPEntry p)⟩
    · intro hs hp _
      rw [hs, hp] at h
      exact absurd h (by decide)
  · constructor
    · simp only [ppStep, if_neg h]
      constructor
      · intro hne
        exfalso
        by_cases hst : p.starter.getD "0" = "1" <;> simp [hst] at hne
      · intro hh
        exact absurd hh h
    · intro _ _ hst
      have hns : ¬ p.starter.getD "0" = "1" := by
        rw [hst]
        decide
      simp [ppStep, if_neg h, if_neg hns]

/-- Witness for C10 at a player record with none of the three flags. -/
theorem c10_player_classification_witness :
    (ppStep ⟨[], [], [], zeroTotals⟩ anonPlayer).dnp = ([] : List DNPEntry) ∧
    (ppStep ⟨[], [], [], zeroTotals⟩ anonPlayer).starters = ([] : List PlayerLine) ∧
    (ppStep ⟨[], [], [], zeroTotals⟩ anonPlayer).bench = [] ++ [mkPlayerLine anonPlayer] :=
  (c10_player_classification ⟨[], [], [], zeroTotals⟩ anonPlayer).2 rfl rfl rfl

/-- A player passing the DNP test is kept by the actives filter. -/
theorem activesOf_cons_active (p : RawPlayer) (ps : List RawPlayer)
    (h : ¬(p.status.getD "ACTIVE" ≠ "ACTIVE" ∨ p.played.getD "1" = "0")) :
    activesOf (p :: ps) = p :: activesOf ps := by
  simp [activesOf, List.filter_cons, isActiveRP, h]

/-- A player failing the DNP test is dropped by the actives filter. -/
theorem activesOf_cons_dnp (p : RawPlayer) (ps : List RawPlayer)
    (h : p.status.getD "ACTIVE" ≠ "ACTIVE" ∨ p.played.getD "1" = "0") :
    activesOf (p :: ps) = activesOf ps := by
  simp [activesOf, List.filter_cons, isActiveRP, h]

/-- The totals reached by the player loop are the fold of the totals
update over the active players only. -/
theorem pp_totals_fold (ps : List RawPlayer) : ∀ st : PPState,
    (List.foldl ppStep st ps).totals = (activesOf ps).foldl addTotals st.totals := by
  induction ps with
  | nil =>
    intro st
    simp [activesOf]
  | cons p ps ih =>
    intro st
    by_cases h : p.status.getD "ACTIVE" ≠ "ACTIVE" ∨ p.played.getD "1" = "0"
    · rw [List.foldl_cons, activesOf_cons_dnp p ps h, ih (ppStep st p)]
      have ht : (ppStep st p).totals = st.totals := by
        simp [ppStep, h]
      rw [ht]
    · rw [List.foldl_cons, activesOf_cons_active p ps h, List.foldl_cons, ih (ppStep st p)]
      have ht : (ppStep st p).totals = addTotals st.totals p := by
        by_cases hst : p.starter.getD "0" = "1" <;> simp [ppStep, h, hst]
      rw [ht]

/-- A fold of the totals update adds the sum of the corresponding
per-player statistic to any totals field that the update increments. -/
theorem foldl_addTotals_field (g : Totals → Int) (f : RawPlayer → Int)
    (hg : ∀ t p, g (addTotals t p) = g t + f p) (l : List RawPlayer) : ∀ t : Totals,
    g (l.foldl addTotals t) = g t + sumOf f l := by
  induction l with
  | nil =>
    intro t
    simp [sumOf]
  | cons p l ih =>
    intro t
    rw [List.foldl_cons, ih, hg]
    simp [sumOf]
    omega

/-- The player loop adds each active player's statistic to exactly one of
the starters/bench columns, so the combined column sums grow by the sum
over actives. -/
theorem pp_fold_sb (gl : PlayerLine → Int) (f : RawPlayer → Int)
    (hmk : ∀ p, gl (mkPlayerLine p) = f p) (ps : List RawPlayer) : ∀ st : PPState,
    ((List.foldl ppStep st ps).starters.map gl).sum +
        ((List.foldl ppStep st ps).bench.map gl).sum =
      (st.starters.map gl).sum + (st.bench.map gl).sum + sumOf f (activesOf ps) := by
  induction ps with
  | nil =>
    intro st
    simp [activesOf, sumOf]
  | cons p ps ih =>
    intro st
    rw [List.foldl_cons, ih (ppStep st p)]
    by_cases h : p.status.getD "ACTIVE" ≠ "ACTIVE" ∨ p.played.getD "1" = "0"
    · have h1 : (ppStep st p).starters = st.starters := by simp [ppStep, h]
      have h2 : (ppStep st p).bench = st.bench := by simp [ppStep, h]
      rw [h1, h2, activesOf_cons_dnp p ps h]
    · rw [activesOf_cons_active p ps h]
      have hsum : sumOf f (p :: activesOf ps) = f p + sumOf f (activesOf ps) := by
        simp [sumOf]
      by_cases hst : p.starter.getD "0" = "1"
      · have h1 : (ppStep st p).starters = st.starters ++ [mkPlayerLine p] := by
          simp [ppStep, h, hst]
        have h2 : (ppStep st p).bench = st.bench := by simp [ppStep, h, hst]
        rw [h1, h2, hsum]
        simp [hmk p]
        omega
      · have h1 : (ppStep st p).starters = st.starters := by simp [ppStep, h, hst]
        have h2 : (ppStep st p).bench = st.bench ++ [mkPlayerLine p] := by
          simp [ppStep, h, hst]
        rw [h1, h2, hsum]
        simp [hmk p]
        omega

/-- C6: the totals row of `_parse_players` sums minutes and points over
starters and bench only (DNP excluded), its made/attempted strings carry
the per-category sums over the active players, and the team percentages
are recomputed from those summed makes and attempts. -/
theorem c6_totals_aggregation (ps : List RawPlayer) :
    sumMin (parsePlayers ps).starters + sumMin (parsePlayers ps).bench =
      (parsePlayers ps).totals.min ∧
    sumPts (parsePlayers ps).starters + sumPts (parsePlayers ps).bench =
      (parsePlayers ps).totals.pts ∧
    (parsePlayers ps).totals.fg =
      intToStr (sumOf fgmOf (activesOf ps)) ++ "-" ++ intToStr (sumOf fgaOf (activesOf ps)) ∧
    (parsePlayers ps).totals.tp =
      intToStr (sumOf tpmOf (activesOf ps)) ++ "-" ++ intToStr (sumOf tpaOf (activesOf ps)) ∧
    (parsePlayers ps).totals.ft =
      intToStr (sumOf ftmOf (activesOf ps)) ++ "-" ++ intToStr (sumOf ftaOf (activesOf ps)) ∧
    (parsePlayers ps).pcts.fg =
      pctStr (sumOf fgmOf (activesOf ps)) (sumOf fgaOf (activesOf ps)) ∧
    (parsePlayers ps).pcts.tp =
      pctStr (sumOf tpmOf (activesOf ps)) (sumOf tpaOf (activesOf ps)) ∧
    (parsePlayers ps).pcts.ft =
      pctStr (sumOf ftmOf (activesOf ps)) (sumOf ftaOf (activesOf ps)) := by
  have hT : (parsePlayersState ps).totals =
      (activesOf ps).foldl addTotals zeroTotals :=
    pp_totals_fold ps ⟨[], [], [], zeroTotals⟩
  have hmin : (parsePlayersState ps).totals.min = sumOf minValOf (activesOf ps) := by
    rw [hT, foldl_addTotals_field Totals.min minValOf (fun t p => rfl)]
    simp [zeroTotals]
  have hpts : (parsePlayersState ps).totals.pts = sumOf ptsOf (activesOf ps) := by
    rw [hT, foldl_addTotals_field Totals.pts ptsOf (fun t p => rfl)]
    simp [zeroTotals]
  have hfgm : (parsePlayersState ps).totals.fgM = sumOf fgmOf (activesOf ps) := by
    rw [hT, foldl_addTotals_field Totals.fgM fgmOf (fun t p => rfl)]
    simp [zeroTotals]
  have hfga : (parsePlayersState ps).totals.fgA = sumOf fgaOf (activesOf ps) := by
    rw [hT, foldl_addTotals_field Totals.fgA fgaOf (fun t p => rfl)]
    simp [zeroTotals]
  have htpm : (parsePlayersState ps).totals.tpM = sumOf tpmOf (activesOf ps) := by
    rw [hT, foldl_addTotals_field Totals.tpM tpmOf (fun t p => rfl)]
    simp [zeroTotals]
  have htpa : (parsePlayersState ps).totals.tpA = sumOf tpaOf (activesOf ps) := by
    rw [hT, foldl_addTotals_field Totals.tpA tpaOf (fun t p => rfl)]
    simp [zeroTotals]
  have hftm : (parsePlayersState ps).totals.ftM = sumOf ftmOf (activesOf ps) := by
    rw [hT, foldl_addTotals_field Totals.ftM ftmOf (fun t p => rfl)]
    simp [zeroTotals]
  have hfta : (parsePlayersState ps).totals.ftA = sumOf ftaOf (activesOf ps) := by
    rw [hT, foldl_addTotals_field Totals.ftA ftaOf (fun t p => rfl)]
    simp [zeroTotals]
  have hsbmin := pp_fold_sb PlayerLine.min minValOf (fun p => rfl) ps ⟨[], [], [], zeroTotals⟩
  have hsbpts := pp_fold_sb PlayerLine.pts ptsOf (fun p => rfl) ps ⟨[], [], [], zeroTotals⟩
  simp only [List.map_nil, List.sum_nil, Int.add_zero, Int.zero_add] at hsbmin hsbpts
  refine ⟨?_, ?_, ?_, ?_, ?_, ?_, ?_, ?_⟩
  · show sumMin (parsePlayersState ps).starters + sumMin (parsePlayersState ps).bench =
      (parsePlayersState ps).totals.min
    rw [hmin]
    simpa [sumMin] using hsbmin
  · show sumPts (parsePlayersState ps).starters + sumPts (parsePlayersState ps).bench =
      (parsePlayersState ps).totals.pts
    rw [hpts]
    simpa [sumPts] using hsbpts
  · show intToStr (parsePlayersState ps).totals.fgM ++ "-" ++
        intToStr (parsePlayersState ps).totals.fgA = _
    rw [hfgm, hfga]
  · show intToStr (parsePlayersState ps).totals.tpM ++ "-" ++
        intToStr (parsePlayersState ps).totals.tpA = _
    rw [htpm, htpa]
  · show intToStr (parsePlayersState ps).totals.ftM ++ "-" ++
        intToStr (parsePlayersState ps).totals.ftA = _
    rw [hftm, hfta]
  · show pctStr (parsePlayersState ps).totals.fgM (parsePlayersState ps).totals.fgA = _
    rw [hfgm, hfga]
  · show pctStr (parsePlayersState ps).totals.tpM (parsePlayersState ps).totals.tpA = _
    rw [htpm, htpa]
  · show pctStr (parsePlayersState ps).totals.ftM (parsePlayersState ps).totals.ftA = _
    rw [hftm, hfta]

/-- The invariant holds initially. -/
theorem invC_init : InvC initCache := by
  refine ⟨?_, ?_, ?_, ?_⟩ <;> simp [initCache]

/-- The invariant is preserved by every atomic step. -/
theorem invC_step {s t : CacheMState} (h : InvC s) (hs : CStep s t) : InvC t := by
  obtain ⟨h1, h2, h3, h4⟩ := h
  cases hs with
  | wAcquire d u c =>
    refine ⟨fun _ => rfl, fun _ => h2 (Or.inl rfl), fun hh => ?_, fun hh => ?_⟩
    · simp at hh
    · simp at hh
  | wData l d u c =>
    refine ⟨fun _ => h1 (by simp), fun hh => ?_, fun _ => rfl, fun hh => ?_⟩
    · simp at hh
    · simp at hh
  | wUpd l d u c =>
    refine ⟨fun _ => h1 (by simp), fun hh => ?_, fun _ => h3 (Or.inl rfl), fun _ => rfl⟩
    · simp at hh
  | wRelease l d u c =>
    refine ⟨fun hh => ?_, fun _ => ?_, fun hh => ?_, fun hh => ?_⟩
    · simp at hh
    · show d = u
      have h3x := h3 (Or.inr rfl)
      have h4x := h4 rfl
      simp at h3x h4x
      omega
    · simp at hh
    · simp at hh
  | rAcquire d u w c =>
    have hw : w = 0 := by
      by_contra hnw
      exact Option.noConfusion (h1 hnw)
    refine ⟨fun hh => absurd hw hh, fun _ => h2 (Or.inl hw), fun hh => ?_, fun hh => ?_⟩
    · simp at hh
      rcases hh with hh | hh <;> omega
    · simp at hh
      omega
  | rRelease d u w c =>
    have hw : w = 0 := by
      by_contra hnw
      exact Holder.noConfusion (Option.some.inj (h1 hnw))
    refine ⟨fun hh => absurd hw hh, fun _ => h2 (Or.inl hw), fun hh => ?_, fun hh => ?_⟩
    · simp at hh
      rcases hh with hh | hh <;> omega
    · simp at hh
      omega

/-- Every reachable state satisfies the invariant. -/
theorem reach_invC {s : CacheMState} (h : ReachC s) : InvC s := by
  induction h with
  | init => exact invC_init
  | next _ hs ih => exact invC_step ih hs

/-- C9: in every reachable interleaving of the writer task with readers,
a reader holding the lock observes data and updated tags written by the
same refresh cycle — never a torn pair. -/
theorem c9_atomic_snapshot (s : CacheMState) (h : ReachC s)
    (hr : s.lock = some Holder.reader) : s.dataVer = s.updVer := by
  obtain ⟨h1, h2, h3, h4⟩ := reach_invC h
  have hw : s.wpc = 0 := by
    by_contra hnw
    rw [h1 hnw] at hr
    exact Holder.noConfusion (Option.some.inj hr)
  exact h2 (Or.inl hw)

/-- Witness for C9: the state reached by one reader acquiring the free
initial lock. -/
theorem c9_atomic_snapshot_witness :
    (⟨some Holder.reader, 0, 0, 0, 0⟩ : CacheMState).dataVer =
      (⟨some Holder.reader, 0, 0, 0, 0⟩ : CacheMState).updVer :=
  c9_atomic_snapshot _ (ReachC.next ReachC.init (CStep.rAcquire 0 0 0 0)) rfl
